import Mathlib

/-!
Verification of the go-smtp mail client (`smtp.go`, package `smtp`).

The Go source is embedded shallowly.  Pure string manipulation (`ParseBody`,
message composition, `strconv` round trips) becomes Lean functions on
`String`/`List Char`.  The network-facing `SendMail`/`GetClient` path becomes a
function of an explicit `ServerBehavior` record (the responses the underlying
`net/smtp` transport would return) which yields the call's result together with
the ordered trace of transport events the Go code performs, so that
resource-release and ordering properties can be stated over the trace.
-/

namespace GoSMTP

/-- Substring test: does `pat` occur contiguously inside `s`?  Used to state
properties about header lines and placeholders. -/
def containsSub (pat : List Char) : List Char → Bool
  | [] => pat.isEmpty
  | c :: rest => pat.isPrefixOf (c :: rest) || containsSub pat rest

/-- String-level wrapper of `containsSub`: `pat` occurs in `s`. -/
def strContains (s pat : String) : Bool := containsSub pat.data s.data

/-- Core of Go `strings.Replace(s, old, new, -1)` for a non-empty pattern:
scan left to right, replacing each non-overlapping occurrence of `old` by
`new`, never rescanning replaced text.  Fuel-based so that it is structural;
each step consumes at least one character, hence fuel `s.length` suffices. -/
def replaceAllAux (old new : List Char) : Nat → List Char → List Char
  | _, [] => []
  | 0, s => s
  | fuel + 1, c :: rest =>
    if old.isPrefixOf (c :: rest) then
      new ++ replaceAllAux old new fuel (List.drop old.length (c :: rest))
    else
      c :: replaceAllAux old new fuel rest

/-- Go `strings.Replace(s, old, new, -1)`.  The only call site (`ParseBody`)
always passes the non-empty pattern `"\x7b\x7b" ++ key ++ "\x7d\x7d"`; the
empty-pattern case (which Go treats as insertion) is never exercised and is
modelled as the identity. -/
def goReplaceAll (s old new : String) : String :=
  if old.data.isEmpty then s
  else String.mk (replaceAllAux old.data new.data s.data.length s.data)

/-- Go `ParseBody` from `smtp.go`: folds `strings.Replace` over the parameter
map's key/value pairs.  Go iterates a `map[string]interface` value in an
unspecified order, so the map is embedded as an association list that records
one iteration order; values are carried as the string `fmt.Sprintf("%v", v)`
renders them to (for string values this is the string itself). -/
def ParseBody (body : String) (parameters : List (String × String)) : String :=
  parameters.foldl (fun b kv => goReplaceAll b ("\x7b\x7b" ++ kv.1 ++ "\x7d\x7d") kv.2) body

/-- Decimal digit to its ASCII character, as Go `strconv` renders digits. -/
def digitToChar (d : Nat) : Char := Char.ofNat (48 + d)

/-- ASCII character back to a decimal digit, `none` when not a digit. -/
def charToDigit (ch : Char) : Option Nat :=
  if 48 ≤ ch.toNat ∧ ch.toNat ≤ 57 then some (ch.toNat - 48) else none

/-- Little-endian decimal digits of `n`, fuel-based (`fuel ≥ n` suffices). -/
def natDigitsLE : Nat → Nat → List Nat
  | 0, _ => []
  | fuel + 1, n => if n = 0 then [] else n % 10 :: natDigitsLE fuel (n / 10)

/-- Value of a little-endian digit list. -/
def valLE : List Nat → Nat
  | [] => 0
  | d :: ds => d + 10 * valLE ds

/-- Decimal rendering of a natural number, as Go `strconv.Itoa` produces it for
non-negative values. -/
def natToString (n : Nat) : String :=
  if n = 0 then "0" else String.mk (((natDigitsLE n n).reverse).map digitToChar)

/-- Go `strconv.Itoa`. -/
def itoa (n : Int) : String :=
  if n < 0 then "-" ++ natToString (-n).toNat else natToString n.toNat

/-- Digit-accumulating loop of the decimal parser. -/
def parseDigitsLoop : List Char → Nat → Option Nat
  | [], acc => some acc
  | ch :: rest, acc =>
    match charToDigit ch with
    | some d => parseDigitsLoop rest (acc * 10 + d)
    | none => none

/-- Go `strconv.Atoi` (decimal with an optional sign; `none` models the error
return).  Machine-word overflow is not modelled: the values stored by this
client are port numbers. -/
def goAtoi (s : String) : Option Int :=
  match s.data with
  | [] => none
  | ch :: rest =>
    if ch = '-' then
      if rest.isEmpty then none else (parseDigitsLoop rest 0).map (fun n => -(n : Int))
    else if ch = '+' then
      if rest.isEmpty then none else (parseDigitsLoop rest 0).map (fun n => (n : Int))
    else (parseDigitsLoop (ch :: rest) 0).map (fun n => (n : Int))

/-- The `Email` struct of `smtp.go`. -/
structure Email where
  To : List String
  Cc : List String
  Bcc : List String
  Subject : String
  Body : String
deriving DecidableEq, Repr

/-- Payload of Go `net/smtp.PlainAuth` (the `plainAuth` struct with fields
identity, username, password, host). -/
structure Auth where
  identity : String
  username : String
  password : String
  host : String
deriving DecidableEq, Repr

/-- Go `net/smtp.PlainAuth`.  Its body is `return &plainAuth{...}`: it
allocates unconditionally and never returns a nil interface value, so the
result is always `some`.  `Option` is kept so that the `auth == nil` test in
`New` is embedded as written. -/
def PlainAuth (identity username password host : String) : Option Auth :=
  some { identity := identity, username := username, password := password, host := host }

/-- The `SMTP` struct of `smtp.go` (`port` is stored as a string, produced by
`strconv.Itoa` at construction). -/
structure SMTP where
  senderAddress : String
  password : String
  host : String
  port : String
  auth : Auth
deriving DecidableEq, Repr

/-- Go `New`: builds the client, returning the `(client, error)` pair as an
`Except`.  The error branch embeds the `auth == nil` check of the source. -/
def New (senderAddress password host : String) (port : Int) : Except String SMTP :=
  match PlainAuth "" senderAddress password host with
  | none => Except.error "auth error, empty auth"
  | some auth =>
    Except.ok { senderAddress := senderAddress, password := password, host := host,
                port := itoa port, auth := auth }

/-- Go `GetSenderAddress`. -/
def GetSenderAddress (c : SMTP) : String := c.senderAddress

/-- Go `GetPassword`. -/
def GetPassword (c : SMTP) : String := c.password

/-- Go `GetHost`. -/
def GetHost (c : SMTP) : String := c.host

/-- Go `GetPort`: `strconv.Atoi` on the stored string with the error ignored
(Go's `Atoi` yields 0 alongside an error). -/
def GetPort (c : SMTP) : Int := (goAtoi c.port).getD 0

/-- The `ccStmt` value computed inside Go `SendMail`. -/
def ccStmt (cc : List String) : String :=
  if cc.length ≠ 0 then "Cc: " ++ String.intercalate "," cc ++ "\r\n" else ""

/-- The `bccStmt` value computed inside Go `SendMail`. -/
def bccStmt (bcc : List String) : String :=
  if bcc.length ≠ 0 then "Bcc: " ++ String.intercalate "," bcc ++ "\r\n" else ""

/-- The message byte string Go `SendMail` writes in the data phase. -/
def composeMessage (email : Email) : String :=
  "Subject: " ++ email.Subject ++ "\r\n" ++
    "To: " ++ String.intercalate "," email.To ++ "\r\n" ++
    ccStmt email.Cc ++ bccStmt email.Bcc ++ "\r\n" ++ email.Body ++ "\r\n"

/-- Responses of the transport/server during one `SendMail` call: `none` means
the operation succeeds, `some e` that it fails with underlying error text `e`.
`rcptResult` is indexed by the position of the `Rcpt` call and the address
passed to it. -/
structure ServerBehavior where
  dialResult : Option String
  tlsResult : Option String
  authResult : Option String
  mailResult : Option String
  rcptResult : Nat → String → Option String
  dataResult : Option String
  writeResult : Option String
  closeWriterResult : Option String

/-- Transport events the Go code performs, recorded in execution order. -/
inductive Event where
  | dial
  | startTLS
  | auth
  | mailFrom
  | rcpt (addr : String)
  | dataCmd
  | write (msg : String)
  | closeWriter
  | logCloseFailure (e : String)
  | closeConn
deriving DecidableEq, Repr

/-- The errors `GetClient`/`SendMail` return.  Constructors carry the
underlying error text; `GoError.message` renders the exact `fmt.Errorf`
strings of the source. -/
inductive GoError where
  | dialErr (e : String)
  | tlsErr (e : String)
  | authErr (e : String)
  | mailErr (e : String)
  | rcptErr (e : String)
  | dataErr (e : String)
  | writeErr (sender host port e : String)
deriving DecidableEq, Repr

/-- The exact error strings produced by the `fmt.Errorf` calls in `smtp.go`. -/
def GoError.message : GoError → String
  | .dialErr e => "client error, failed to dial; " ++ e
  | .tlsErr e => "client error, failed to start tls; " ++ e
  | .authErr e => "client error, failed to apply auth; " ++ e
  | .mailErr e => "client error, failed to create mail; " ++ e
  | .rcptErr e => "send error, failed to add recipients; " ++ e
  | .dataErr e => "send error, failed to create data; " ++ e
  | .writeErr sender host port e =>
      "send error, failed to send email from " ++ sender ++ " [" ++ host ++ ":" ++ port ++
        "], " ++ e

/-- Go `GetClient`: dial, then STARTTLS, AUTH and MAIL FROM on the dialed
connection.  Returns the result together with the trace of attempted transport
operations.  Note, exactly as in the source: on a failure after a successful
dial the function returns without closing the dialed connection — none of the
error paths of `GetClient` contain a `Close`. -/
def GetClient (_c : SMTP) (s : ServerBehavior) : Except GoError Unit × List Event :=
  match s.dialResult with
  | some e => (Except.error (GoError.dialErr e), [Event.dial])
  | none =>
    match s.tlsResult with
    | some e => (Except.error (GoError.tlsErr e), [Event.dial, Event.startTLS])
    | none =>
      match s.authResult with
      | some e => (Except.error (GoError.authErr e), [Event.dial, Event.startTLS, Event.auth])
      | none =>
        match s.mailResult with
        | some e =>
            (Except.error (GoError.mailErr e),
              [Event.dial, Event.startTLS, Event.auth, Event.mailFrom])
        | none =>
            (Except.ok (), [Event.dial, Event.startTLS, Event.auth, Event.mailFrom])

/-- The recipient loop of Go `SendMail`: `client.Rcpt(addr)` for each address
of `To` in order, stopping at the first failure. -/
def rcptLoop (rcptResult : Nat → String → Option String) :
    Nat → List String → Except GoError Unit × List Event
  | _, [] => (Except.ok (), [])
  | i, addr :: rest =>
    match rcptResult i addr with
    | some e => (Except.error (GoError.rcptErr e), [Event.rcpt addr])
    | none =>
      match rcptLoop rcptResult (i + 1) rest with
      | (r, evs) => (r, Event.rcpt addr :: evs)

/-- Go `SendMail`, as a function of the server behavior: the returned
`(error)` value and the full transport trace.  Faithful to the source's
control flow: `defer client.Close()` is registered only once `GetClient` has
succeeded; the data-writer close `defer` only once `client.Data()` has
succeeded; the two defers run in reverse order (writer close, then connection
close); and the writer-close error is assigned to the plain local `err` (not a
named result) and only logged, so it never alters the returned value. -/
def SendMail (c : SMTP) (s : ServerBehavior) (email : Email) :
    Except GoError Unit × List Event :=
  match GetClient c s with
  | (Except.error e, gevs) => (Except.error e, gevs)
  | (Except.ok _, gevs) =>
    match rcptLoop s.rcptResult 0 email.To with
    | (Except.error e, revs) => (Except.error e, gevs ++ revs ++ [Event.closeConn])
    | (Except.ok _, revs) =>
      match s.dataResult with
      | some e =>
          (Except.error (GoError.dataErr e),
            gevs ++ revs ++ [Event.dataCmd, Event.closeConn])
      | none =>
        match s.writeResult, s.closeWriterResult with
        | some e, some e2 =>
            (Except.error (GoError.writeErr c.senderAddress c.host c.port e),
              gevs ++ revs ++ [Event.dataCmd, Event.write (composeMessage email),
                Event.closeWriter, Event.logCloseFailure e2, Event.closeConn])
        | some e, none =>
            (Except.error (GoError.writeErr c.senderAddress c.host c.port e),
              gevs ++ revs ++ [Event.dataCmd, Event.write (composeMessage email),
                Event.closeWriter, Event.closeConn])
        | none, some e2 =>
            (Except.ok (),
              gevs ++ revs ++ [Event.dataCmd, Event.write (composeMessage email),
                Event.closeWriter, Event.logCloseFailure e2, Event.closeConn])
        | none, none =>
            (Except.ok (),
              gevs ++ revs ++ [Event.dataCmd, Event.write (composeMessage email),
                Event.closeWriter, Event.closeConn])

/-- Recognizer for recipient-declaration events. -/
def isRcptEvent : Event → Bool
  | Event.rcpt _ => true
  | _ => false

/-- Recognizer for data-payload write events. -/
def isWriteEvent : Event → Bool
  | Event.write _ => true
  | _ => false

/-- A server behavior on which every transport operation succeeds. -/
def allOk : ServerBehavior :=
  { dialResult := none, tlsResult := none, authResult := none, mailResult := none,
    rcptResult := fun _ _ => none, dataResult := none, writeResult := none,
    closeWriterResult := none }

/-- A concrete client value used for closed evaluations. -/
def demoClient : SMTP :=
  { senderAddress := "sender@x.com", password := "pw", host := "smtp.x.com", port := "587",
    auth := { identity := "", username := "sender@x.com", password := "pw",
              host := "smtp.x.com" } }

/-- A concrete email value used for closed evaluations. -/
def demoEmail : Email :=
  { To := ["a@x.com"], Cc := [], Bcc := [], Subject := "S", Body := "B" }

/-- The `allOk` behavior except that the STARTTLS upgrade fails. -/
def tlsFail : ServerBehavior := { allOk with tlsResult := some "tls handshake failed" }

/-- C1 counterexample: with an empty password (and even an empty sender and
host), `New` returns a client rather than failing with an auth error, because
`net/smtp.PlainAuth` never returns a nil value and so the `auth == nil` branch
is unreachable. -/
theorem new_succeeds_on_empty_password :
    New "sender@x.com" "" "smtp.x.com" 587
      = Except.ok
          { senderAddress := "sender@x.com", password := "", host := "smtp.x.com",
            port := "587",
            auth := { identity := "", username := "sender@x.com", password := "",
                      host := "smtp.x.com" } } := by
  rfl

/-- C1 (amended): `New` never fails — for every input, including an empty
password, the credential token is produced and a client is returned; the
"auth error, empty auth" branch of the source is dead code. -/
theorem new_never_fails (senderAddress password host : String) (port : Int) :
    ∃ c, New senderAddress password host port = Except.ok c :=
  ⟨_, rfl⟩

/-- C2: evaluating `SendMail` at a behavior where the dial succeeds and the
STARTTLS upgrade then fails: the call returns the TLS error but the trace
contains no connection-close event at all — the dialed connection is leaked,
contradicting the claim that every exit path closes the connection exactly
once. -/
theorem sendMail_leaks_connection_on_tls_failure :
    tlsFail.dialResult = none ∧
    (SendMail demoClient tlsFail demoEmail).1
        = Except.error (GoError.tlsErr "tls handshake failed") ∧
    (SendMail demoClient tlsFail demoEmail).2.count Event.closeConn = 0 := by
  refine ⟨rfl, rfl, ?_⟩
  decide

/-- C3 counterexample: the two iteration orders of the mapping
`a ↦ "\x7b\x7bb\x7d\x7d", b ↦ "X"` are permutations of one another, yet
`ParseBody` gives different results on the body `"\x7b\x7ba\x7d\x7d"`
("X" versus "\x7b\x7bb\x7d\x7d"): the output is not independent of the order
of substitution, because the placeholder introduced by the value of `a` is
expanded when `b` is substituted later. -/
theorem parseBody_order_dependent_cex :
    List.Perm [("a", "\x7b\x7bb\x7d\x7d"), ("b", "X")]
        [("b", "X"), ("a", "\x7b\x7bb\x7d\x7d")] ∧
    ParseBody "\x7b\x7ba\x7d\x7d" [("a", "\x7b\x7bb\x7d\x7d"), ("b", "X")]
      ≠ ParseBody "\x7b\x7ba\x7d\x7d" [("b", "X"), ("a", "\x7b\x7bb\x7d\x7d")] :=
  ⟨by decide, by decide⟩

/-- C3 (amended): `ParseBody` performs the substitutions sequentially in the
mapping's iteration order; consequently two iteration orders of the same
mapping can give different outputs, and a substituted value that contains the
placeholder of another key of the mapping is expanded by that key's later
substitution (the body `"\x7b\x7ba\x7d\x7d"` under
`a ↦ "\x7b\x7bb\x7d\x7d", b ↦ "X"` in that order becomes `"X"`). -/
theorem parseBody_sequential_substitution :
    (∃ (body : String) (ps1 ps2 : List (String × String)),
        List.Perm ps1 ps2 ∧ ParseBody body ps1 ≠ ParseBody body ps2) ∧
    ParseBody "\x7b\x7ba\x7d\x7d" [("a", "\x7b\x7bb\x7d\x7d"), ("b", "X")] = "X" :=
  ⟨⟨"\x7b\x7ba\x7d\x7d", [("a", "\x7b\x7bb\x7d\x7d"), ("b", "X")],
      [("b", "X"), ("a", "\x7b\x7bb\x7d\x7d")], by decide, by decide⟩, by decide⟩

/-- C4: for `To=["a@x.com"]`, `Cc=[]`, `Bcc=[]`, `Subject="S"`, `Body="B"`, the
data-phase payload written by `SendMail` is exactly
`"Subject: S\r\nTo: a@x.com\r\n\r\nB\r\n"`, with no Cc or Bcc header line. -/
theorem sendMail_message_exact_basic :
    (SendMail demoClient allOk demoEmail).2.filter isWriteEvent
        = [Event.write "Subject: S\r\nTo: a@x.com\r\n\r\nB\r\n"] ∧
    composeMessage demoEmail = "Subject: S\r\nTo: a@x.com\r\n\r\nB\r\n" ∧
    strContains "Subject: S\r\nTo: a@x.com\r\n\r\nB\r\n" "Cc:" = false ∧
    strContains "Subject: S\r\nTo: a@x.com\r\n\r\nB\r\n" "Bcc:" = false := by
  refine ⟨by decide, by decide, by decide, by decide⟩

/-- C8 counterexample: for the body `"\x7b\x7bb\x7b\x7ba\x7d\x7d"` and the
single-key mapping `b\x7b\x7ba ↦ "X"`, the whole body is that key's
placeholder and is replaced by `"X"`; the well-formed placeholder
`"\x7b\x7ba\x7d\x7d"` occurred in the body, the key `a` is not in the mapping,
and yet the placeholder does not survive in the output — so `ParseBody` does
not always leave placeholders with no matching key intact. -/
theorem parseBody_unmatched_placeholder_destroyed_cex :
    ParseBody "\x7b\x7bb\x7b\x7ba\x7d\x7d" [("b\x7b\x7ba", "X")] = "X" ∧
    strContains "\x7b\x7bb\x7b\x7ba\x7d\x7d" "\x7b\x7ba\x7d\x7d" = true ∧
    strContains "X" "\x7b\x7ba\x7d\x7d" = false ∧
    "a" ∉ [("b\x7b\x7ba", "X")].map Prod.fst :=
  ⟨by decide, by decide, by decide, by decide⟩

/-- Helper: merging the two adjacent literals of the Subject and To lines. -/
theorem crlf_to_merge (x : String) : "\r\n" ++ ("To: " ++ x) = "\r\nTo: " ++ x :=
  String.ext (by simp)

/-- Modelled from the spec's words: concatenation of a list of lines. -/
def concatLines (ls : List String) : String := ls.foldr (fun a b => a ++ b) ""

/-- Modelled from the spec's words (§4.1 step 4): the header block as a list of
lines in the stated order — Subject line, To line, then a Cc line exactly when
`Cc` is non-empty, then a Bcc line exactly when `Bcc` is non-empty. -/
def specHeaderLines (email : Email) : List String :=
  ["Subject: " ++ email.Subject ++ "\r\n", "To: " ++ String.intercalate "," email.To ++ "\r\n"]
    ++ (if email.Cc = [] then [] else ["Cc: " ++ String.intercalate "," email.Cc ++ "\r\n"])
    ++ (if email.Bcc = [] then [] else ["Bcc: " ++ String.intercalate "," email.Bcc ++ "\r\n"])

/-- Modelled from the spec's words: the header block, a blank line, then the
body followed by CRLF. -/
def specMessage (email : Email) : String :=
  concatLines (specHeaderLines email) ++ "\r\n" ++ email.Body ++ "\r\n"

/-- C5: for every email, the message composed by `SendMail` equals the
spec-side rendering `specMessage` (Subject line, To line, Cc line iff `Cc`
non-empty, Bcc line iff `Bcc` non-empty, blank line, body-CRLF, in this exact
order); and for `Cc = ["c@x.com", "d@x.com"]` the line
`"Cc: c@x.com,d@x.com\r\n"` sits immediately after the To line and before any
Bcc line or the blank separator. -/
theorem composeMessage_matches_spec_order :
    (∀ email : Email, composeMessage email = specMessage email) ∧
    composeMessage ⟨["a@x.com"], ["c@x.com", "d@x.com"], [], "S", "B"⟩
      = "Subject: S\r\nTo: a@x.com\r\nCc: c@x.com,d@x.com\r\n\r\nB\r\n" := by
  constructor
  · intro email
    obtain ⟨tos, cc, bcc, subj, bod⟩ := email
    cases cc <;> cases bcc <;>
      simp [composeMessage, specMessage, specHeaderLines, concatLines, ccStmt, bccStmt,
        String.append_assoc, crlf_to_merge]
  · decide

/-- Helper: if the first rejected recipient of the list `l` (with `Rcpt` call
numbering starting at `n`) is at position `i` with server message `e`, then the
recipient loop returns the recipient error and has declared exactly the first
`i + 1` addresses. -/
theorem rcptLoop_first_fail (rc : Nat → String → Option String) :
    ∀ (l : List String) (n i : Nat) (e : String),
      i < l.length →
      (∀ j, j < i → rc (n + j) (l.getD j "") = none) →
      rc (n + i) (l.getD i "") = some e →
      rcptLoop rc n l = (Except.error (GoError.rcptErr e), (l.take (i + 1)).map Event.rcpt) := by
  intro l
  induction l with
  | nil => intro n i e hi; simp at hi
  | cons addr rest ih =>
    intro n i e hi hok hfail
    cases i with
    | zero =>
      simp only [List.getD_cons_zero, Nat.add_zero] at hfail
      simp [rcptLoop, hfail]
    | succ k =>
      have h0 : rc n addr = none := by
        have := hok 0 (Nat.succ_pos k)
        simpa using this
      have hrec := ih (n + 1) k e (by simpa using hi)
        (fun j hj => by
          have := hok (j + 1) (by omega)
          simpa [Nat.add_assoc, Nat.add_comm 1 j] using this)
        (by
          have := hfail
          simpa [Nat.add_assoc, Nat.add_comm 1 k] using this)
      simp [rcptLoop, h0, hrec]

/-- C6: when the connection-opening phase succeeds and the first rejected
recipient of `To` is at position `i`, `SendMail` returns the recipient error
for that address; the recipient-declaration events in the trace are exactly
the first `i + 1` addresses of `To` in order (no later recipient is declared);
and the data phase is never entered (no `DATA` command appears in the trace,
so no data-phase error can follow a recipient error in the same call). -/
theorem sendMail_recipient_failure_aborts (c : SMTP) (s : ServerBehavior) (email : Email)
    (i : Nat) (e : String)
    (hdial : s.dialResult = none) (htls : s.tlsResult = none)
    (hauth : s.authResult = none) (hmail : s.mailResult = none)
    (hi : i < email.To.length)
    (hbefore : ∀ j, j < i → s.rcptResult j (email.To.getD j "") = none)
    (hfail : s.rcptResult i (email.To.getD i "") = some e) :
    (SendMail c s email).1 = Except.error (GoError.rcptErr e) ∧
    (SendMail c s email).2.filter isRcptEvent = (email.To.take (i + 1)).map Event.rcpt ∧
    Event.dataCmd ∉ (SendMail c s email).2 := by
  have hloop := rcptLoop_first_fail s.rcptResult email.To 0 i e hi
    (fun j hj => by simpa using hbefore j hj) (by simpa using hfail)
  simp only [SendMail, GetClient, hdial, htls, hauth, hmail, hloop]
  refine ⟨trivial, ?_, ?_⟩
  · simp [isRcptEvent, Function.comp, List.map_take, List.filter_append]
    intro a ha
    obtain ⟨x, hx, rfl⟩ := List.mem_map.1 (List.take_subset _ _ ha)
    rfl
  · intro hmem
    simp at hmem
    obtain ⟨x, hx, hxx⟩ := List.mem_map.1 (List.take_subset _ _ hmem)
    exact Event.noConfusion hxx

/-- A behavior whose server rejects the second `RCPT TO` command. -/
def secondRcptFails : ServerBehavior :=
  { allOk with rcptResult := fun i _ => if i = 1 then some "550 user rejected" else none }

/-- C6 witness: a concrete run in which the second of three recipients is
rejected — `SendMail` returns the recipient error, declares exactly the first
two addresses, and never enters the data phase. -/
theorem sendMail_recipient_failure_aborts_witness :
    (SendMail demoClient secondRcptFails
        ⟨["a@x.com", "b@x.com", "c@x.com"], [], [], "S", "B"⟩).1
      = Except.error (GoError.rcptErr "550 user rejected") ∧
    (SendMail demoClient secondRcptFails
        ⟨["a@x.com", "b@x.com", "c@x.com"], [], [], "S", "B"⟩).2.filter isRcptEvent
      = (["a@x.com", "b@x.com", "c@x.com"].take 2).map Event.rcpt ∧
    Event.dataCmd ∉ (SendMail demoClient secondRcptFails
        ⟨["a@x.com", "b@x.com", "c@x.com"], [], [], "S", "B"⟩).2 :=
  sendMail_recipient_failure_aborts demoClient secondRcptFails
    ⟨["a@x.com", "b@x.com", "c@x.com"], [], [], "S", "B"⟩ 1 "550 user rejected"
    rfl rfl rfl rfl (by decide) (by decide) (by decide)

/-- C7: the value `SendMail` returns is entirely independent of whether the
data-writer close succeeds or fails and of its error text: replacing the
writer-close response by any other response leaves the returned value
unchanged on every path (the close failure is only logged — the Go source
assigns the close error to a plain local, not a named result). -/
theorem sendMail_result_independent_of_writer_close (c : SMTP) (s : ServerBehavior)
    (email : Email) (r : Option String) :
    (SendMail c { s with closeWriterResult := r } email).1 = (SendMail c s email).1 := by
  obtain ⟨d, t, a, m, rc, da, w, cw⟩ := s
  cases d <;> cases t <;> cases a <;> cases m <;>
    simp only [SendMail, GetClient]
  all_goals {
    rcases hh : rcptLoop rc 0 email.To with ⟨res, evs⟩
    cases res <;> cases da <;> cases w <;> cases r <;> cases cw <;> rfl
  }

/-- Helper: a pattern that occurs nowhere in `s` is never a prefix at any scan
position, so one pass of the replacement loop leaves `s` unchanged. -/
theorem replaceAllAux_of_not_contains (old new : List Char) :
    ∀ (fuel : Nat) (s : List Char),
      containsSub old s = false → replaceAllAux old new fuel s = s := by
  intro fuel
  induction fuel with
  | zero => intro s h; cases s <;> rfl
  | succ f ih =>
    intro s h
    cases s with
    | nil => rfl
    | cons c rest =>
      simp only [containsSub, Bool.or_eq_false_iff] at h
      obtain ⟨h1, h2⟩ := h
      simp only [replaceAllAux, h1, Bool.false_eq_true, if_false]
      rw [ih rest h2]

/-- Helper: `strings.Replace` with a pattern that does not occur in `s` is the
identity. -/
theorem goReplaceAll_of_not_contains (s old new : String) (h : strContains s old = false) :
    goReplaceAll s old new = s := by
  unfold goReplaceAll
  split
  · rfl
  · rw [replaceAllAux_of_not_contains old.data new.data s.data.length s.data h]

/-- Helper: when no key's placeholder occurs in the body, `ParseBody` returns
the body unchanged — keys absent from the body are silently ignored. -/
theorem parseBody_ignores_absent (body : String) (ps : List (String × String))
    (h : ∀ kv ∈ ps, strContains body ("\x7b\x7b" ++ kv.1 ++ "\x7d\x7d") = false) :
    ParseBody body ps = body := by
  induction ps with
  | nil => rfl
  | cons kv t ih =>
    show ParseBody (goReplaceAll body ("\x7b\x7b" ++ kv.1 ++ "\x7d\x7d") kv.2) t = body
    rw [goReplaceAll_of_not_contains body _ kv.2 (h kv (by simp))]
    exact ih (fun kv2 hm => h kv2 (by simp [hm]))

/-- C8 (amended): on the claim's own example `ParseBody` substitutes the
matching key and leaves the unmatched placeholder intact,
`ParseBody("Hello \x7b\x7bname\x7d\x7d, \x7b\x7bunused\x7d\x7d",
name ↦ Sam) = "Hello Sam, \x7b\x7bunused\x7d\x7d"`; and in general every
mapping key whose placeholder does not occur in the body is silently ignored
(the body is returned unchanged when no key's placeholder occurs).  The
original claim's blanket "placeholders with no matching key are left intact"
holds only when no mapping key's placeholder overlaps them, which can fail for
keys that themselves contain brace characters. -/
theorem parseBody_absent_key_behavior :
    ParseBody "Hello \x7b\x7bname\x7d\x7d, \x7b\x7bunused\x7d\x7d" [("name", "Sam")]
        = "Hello Sam, \x7b\x7bunused\x7d\x7d" ∧
    (∀ (body : String) (ps : List (String × String)),
        (∀ kv ∈ ps, strContains body ("\x7b\x7b" ++ kv.1 ++ "\x7d\x7d") = false) →
        ParseBody body ps = body) :=
  ⟨by decide, parseBody_ignores_absent⟩

/-- C8 witness: the general conjunct applied to a concrete body and mapping
whose key does not occur in the body. -/
theorem parseBody_absent_key_behavior_witness :
    ParseBody "abc" [("k", "v")] = "abc" :=
  parseBody_absent_key_behavior.2 "abc" [("k", "v")] (by decide)

/-- Helper: the little-endian digit list of `n` evaluates back to `n`
(for sufficient fuel). -/
theorem valLE_natDigitsLE : ∀ fuel n, n ≤ fuel → valLE (natDigitsLE fuel n) = n := by
  intro fuel
  induction fuel with
  | zero => intro n h; interval_cases n; rfl
  | succ f ih =>
    intro n h
    by_cases h0 : n = 0
    · subst h0; rfl
    · have hpos : 0 < n := Nat.pos_of_ne_zero h0
      have hdiv : n / 10 ≤ f := by
        have : n / 10 < n := Nat.div_lt_self hpos (by norm_num)
        omega
      simp only [natDigitsLE, h0, if_false, valLE]
      rw [ih (n / 10) hdiv]
      omega

/-- Helper: every produced decimal digit is below 10. -/
theorem natDigitsLE_lt_ten : ∀ fuel n d, d ∈ natDigitsLE fuel n → d < 10 := by
  intro fuel
  induction fuel with
  | zero => intro n d h; simp [natDigitsLE] at h
  | succ f ih =>
    intro n d h
    by_cases h0 : n = 0
    · subst h0; simp [natDigitsLE] at h
    · simp only [natDigitsLE, h0, if_false, List.mem_cons] at h
      rcases h with h | h
      · subst h; exact Nat.mod_lt _ (by norm_num)
      · exact ih _ _ h

/-- Helper: decoding inverts encoding on decimal digits. -/
theorem charToDigit_digitToChar : ∀ d, d < 10 → charToDigit (digitToChar d) = some d := by
  decide

/-- Helper: a digit character is neither the minus nor the plus sign. -/
theorem digitToChar_ne_sign : ∀ d, d < 10 → digitToChar d ≠ '-' ∧ digitToChar d ≠ '+' := by
  decide

/-- Helper: parsing an all-digit character list accumulates the decimal
value. -/
theorem parseDigitsLoop_map :
    ∀ (l : List Nat), (∀ d ∈ l, d < 10) →
      ∀ acc, parseDigitsLoop (l.map digitToChar) acc
        = some (l.foldl (fun a d => a * 10 + d) acc) := by
  intro l
  induction l with
  | nil => intro _ acc; rfl
  | cons d ds ih =>
    intro h acc
    have hd : d < 10 := h d (by simp)
    simp only [List.map_cons, parseDigitsLoop, charToDigit_digitToChar d hd, List.foldl_cons]
    exact ih (fun x hx => h x (by simp [hx])) (acc * 10 + d)

/-- Helper: folding the decimal accumulator over a reversed little-endian
digit list recovers its value. -/
theorem foldl_reverse_valLE :
    ∀ (l : List Nat) (acc : Nat),
      (l.reverse).foldl (fun a d => a * 10 + d) acc = acc * 10 ^ l.length + valLE l := by
  intro l
  induction l with
  | nil => intro acc; simp [valLE]
  | cons d ds ih =>
    intro acc
    simp only [List.reverse_cons, List.foldl_append, List.foldl_cons, List.foldl_nil, ih,
      valLE, List.length_cons]
    ring

/-- Helper: `strconv.Atoi` inverts `strconv.Itoa` on positive naturals. -/
theorem goAtoi_natToString (n : Nat) (hn : 0 < n) : goAtoi (natToString n) = some (n : Int) := by
  have hne : n ≠ 0 := Nat.pos_iff_ne_zero.mp hn
  have hdigs : natDigitsLE n n ≠ [] := by
    obtain ⟨f, rfl⟩ := Nat.exists_eq_succ_of_ne_zero hne
    simp [natDigitsLE]
  unfold natToString
  rw [if_neg hne]
  cases hrev : (natDigitsLE n n).reverse with
  | nil =>
    exact absurd (by simpa using congrArg List.reverse hrev) hdigs
  | cons d0 ds =>
    have hd0 : d0 < 10 := by
      have : d0 ∈ natDigitsLE n n := by
        have : d0 ∈ (natDigitsLE n n).reverse := by rw [hrev]; simp
        simpa using this
      exact natDigitsLE_lt_ten n n d0 this
    have hall : ∀ d ∈ d0 :: ds, d < 10 := by
      intro d hd
      have : d ∈ natDigitsLE n n := by
        have : d ∈ (natDigitsLE n n).reverse := by rw [hrev]; exact hd
        simpa using this
      exact natDigitsLE_lt_ten n n d this
    obtain ⟨hne1, hne2⟩ := digitToChar_ne_sign d0 hd0
    show goAtoi (String.mk ((d0 :: ds).map digitToChar)) = some (n : Int)
    unfold goAtoi
    simp only [List.map_cons, if_neg hne1, if_neg hne2]
    have hpd : parseDigitsLoop (digitToChar d0 :: List.map digitToChar ds) 0
        = some ((d0 :: ds).foldl (fun a d => a * 10 + d) 0) := by
      simpa using parseDigitsLoop_map (d0 :: ds) hall 0
    have hfold : (d0 :: ds).foldl (fun a d => a * 10 + d) 0 = n := by
      rw [← hrev, foldl_reverse_valLE, valLE_natDigitsLE n n le_rfl]
      simp
    rw [hpd, hfold]
    rfl

/-- C9: for every sender, non-empty password, host, and port between 1 and
65535, construction succeeds and the four accessors return exactly the
supplied values — including the port, which survives the internal
`Itoa`/`Atoi` string round trip. -/
theorem new_roundtrip_accessors (senderAddress password host : String) (port : Int)
    (_hpw : password ≠ "") (h1 : 1 ≤ port) (h2 : port ≤ 65535) :
    ∃ c, New senderAddress password host port = Except.ok c ∧
      GetSenderAddress c = senderAddress ∧ GetPassword c = password ∧
      GetHost c = host ∧ GetPort c = port := by
  refine ⟨_, rfl, rfl, rfl, rfl, ?_⟩
  show (goAtoi (itoa port)).getD 0 = port
  have hnn : ¬ port < 0 := by omega
  have hpos : 0 < port.toNat := by omega
  rw [itoa, if_neg hnn, goAtoi_natToString port.toNat hpos]
  simp only [Option.getD_some]
  omega

/-- C9 witness: the round trip at a concrete quadruple with port 587. -/
theorem new_roundtrip_accessors_witness :
    ∃ c, New "a@b.c" "pw" "smtp.example.com" 587 = Except.ok c ∧
      GetSenderAddress c = "a@b.c" ∧ GetPassword c = "pw" ∧
      GetHost c = "smtp.example.com" ∧ GetPort c = 587 :=
  new_roundtrip_accessors "a@b.c" "pw" "smtp.example.com" 587 (by decide) (by decide) (by decide)

/-- C10: when `To` is empty and the connection-opening phase succeeds,
`SendMail` performs no client-side validation of its own — it declares zero
recipients, can never return a recipient error (whatever the server does), it
always proceeds to the data phase, and the composed message's To header line
is `"To: \r\n"` with an empty address list. -/
theorem sendMail_empty_to_no_validation (c : SMTP) (s : ServerBehavior) (email : Email)
    (hTo : email.To = [])
    (hdial : s.dialResult = none) (htls : s.tlsResult = none)
    (hauth : s.authResult = none) (hmail : s.mailResult = none) :
    (SendMail c s email).2.filter isRcptEvent = [] ∧
    (∀ e, (SendMail c s email).1 ≠ Except.error (GoError.rcptErr e)) ∧
    Event.dataCmd ∈ (SendMail c s email).2 ∧
    composeMessage email
      = "Subject: " ++ email.Subject ++ "\r\nTo: \r\n" ++ ccStmt email.Cc ++ bccStmt email.Bcc
          ++ "\r\n" ++ email.Body ++ "\r\n" := by
  have hloop : rcptLoop s.rcptResult 0 email.To = (Except.ok (), []) := by
    rw [hTo]; rfl
  simp only [SendMail, GetClient, hdial, htls, hauth, hmail, hloop]
  refine ⟨?_, ?_, ?_, ?_⟩
  · cases hda : s.dataResult <;> cases hw : s.writeResult <;> cases hcw : s.closeWriterResult <;>
      simp [isRcptEvent]
  · intro e
    cases hda : s.dataResult <;> cases hw : s.writeResult <;> cases hcw : s.closeWriterResult <;>
      simp
  · cases hda : s.dataResult <;> cases hw : s.writeResult <;> cases hcw : s.closeWriterResult <;>
      simp
  · simp [composeMessage, hTo, String.append_assoc, crlf_to_merge, String.intercalate]

/-- C10 witness: a concrete email with an empty To list sent over an
all-successful server behavior. -/
theorem sendMail_empty_to_no_validation_witness :
    (SendMail demoClient allOk ⟨[], ["c@x.com"], [], "S", "B"⟩).2.filter isRcptEvent = [] ∧
    (∀ e, (SendMail demoClient allOk ⟨[], ["c@x.com"], [], "S", "B"⟩).1
        ≠ Except.error (GoError.rcptErr e)) ∧
    Event.dataCmd ∈ (SendMail demoClient allOk ⟨[], ["c@x.com"], [], "S", "B"⟩).2 ∧
    composeMessage ⟨[], ["c@x.com"], [], "S", "B"⟩
      = "Subject: " ++ "S" ++ "\r\nTo: \r\n" ++ ccStmt ["c@x.com"] ++ bccStmt []
          ++ "\r\n" ++ "B" ++ "\r\n" :=
  sendMail_empty_to_no_validation demoClient allOk ⟨[], ["c@x.com"], [], "S", "B"⟩
    rfl rfl rfl rfl rfl

end GoSMTP
